import Mathlib

set_option maxHeartbeats 1000000

namespace BillingBars

/-- An invoice record as held in the in-memory dataframe `df` of
src/billing_bars.py: columns `id, client, amount, month, created_at` in the
fixed order enforced by `save_data`. Python float amounts are modelled as
exact rationals. -/
structure Record where
  id : String
  client : String
  amount : ℚ
  month : String
  created_at : String
deriving DecidableEq, Repr

/-- A raw CSV row as produced by `pd.read_csv` and the column-cleaning of
`load_data` (lines 37-48): the `amount` cell is `none` when the text is
non-numeric (`pd.to_numeric(..., errors="coerce")` yields NaN), and the `id`
cell is the string contents (`astype(str)` renders a missing cell as "nan"). -/
structure RawRow where
  id : String
  client : String
  amount : Option ℚ
  month : String
  created_at : String
deriving DecidableEq, Repr

/-- `save_data` (src/billing_bars.py:20-23): writes the whole collection back
in the fixed column order; every written amount cell is numeric. -/
def save_data (recs : List Record) : List RawRow :=
  recs.map fun r =>
    { id := r.id, client := r.client, amount := some r.amount,
      month := r.month, created_at := r.created_at }

/-- The missing-id test of `load_data` (line 51):
`df["id"].isin(["", "nan", "None"]) | df["id"].isna()`; after `astype(str)` a
missing id reads as "nan", so a bad id is one of "", "nan", "None". -/
def badId (s : String) : Bool :=
  s = "" || s = "nan" || s = "None"

/-- The cleaning pass of `load_data` (lines 42-54): coerce a non-numeric
amount to 0 and give each row with a bad id the next identifier of the
`str(uuid.uuid4())` stream `fresh`, consumed in row order from index `k`. -/
def repairRows (fresh : ℕ → String) : List RawRow → ℕ → List Record
  | [], _ => []
  | row :: rest, k =>
    if badId row.id then
      { id := fresh k, client := row.client, amount := row.amount.getD 0,
        month := row.month, created_at := row.created_at }
        :: repairRows fresh rest (k + 1)
    else
      { id := row.id, client := row.client, amount := row.amount.getD 0,
        month := row.month, created_at := row.created_at }
        :: repairRows fresh rest k

/-- `load_data` (src/billing_bars.py:26-56). The stored file is `none` when
`DATA_PATH` does not exist. Returns the cleaned collection together with the
file write performed (`none` = no write): when some row has a bad id, the
repaired collection is saved before returning. -/
def load_data (file : Option (List RawRow)) (fresh : ℕ → String) :
    List Record × Option (List RawRow) :=
  match file with
  | none => ([], none)
  | some rows =>
    let recs := repairRows fresh rows 0
    if rows.any fun row => badId row.id then (recs, some (save_data recs))
    else (recs, none)

/-- `clamp` (src/billing_bars.py:59-60). -/
def clamp (x : ℚ) (lo : ℚ := 0) (hi : ℚ := 1) : ℚ := max lo (min hi x)

/-- `lerp` (src/billing_bars.py:63-64). -/
def lerp (a b t : ℚ) : ℚ := a + (b - a) * t

/-- Python `int()`: truncation toward zero, applied by `rgb_to_hex`
(src/billing_bars.py:67-68) to each channel before hex formatting. -/
def pyInt (q : ℚ) : ℤ := if 0 ≤ q then ⌊q⌋ else -⌊-q⌋

/-- The exact channel values computed by `color_for_value`
(src/billing_bars.py:71-100) before `rgb_to_hex` encodes them with `int()`.
The anchors are red (220,53,69), yellow (255,193,7), green (25,135,84); the
`target <= 0` branch returns "#198754", i.e. (25,135,84). -/
def color_channels (value target : ℚ) (pivot : ℚ := 3/5) : ℚ × ℚ × ℚ :=
  if target ≤ 0 then (25, 135, 84)
  else
    let ratio := clamp (value / target)
    if ratio ≤ pivot then
      let t := if 0 < pivot then ratio / pivot else 1
      (lerp 220 255 t, lerp 53 193 t, lerp 69 7 t)
    else
      let t := if 0 < 1 - pivot then (ratio - pivot) / (1 - pivot) else 1
      (lerp 255 25 t, lerp 193 135 t, lerp 7 84 t)

/-- `color_for_value` composed with `rgb_to_hex`'s integer encoding: the RGB
integer triple whose two-digit hex components form the returned color
string. -/
def color_for_value (value target : ℚ) (pivot : ℚ := 3/5) : ℤ × ℤ × ℤ :=
  let c := color_channels value target pivot
  (pyInt c.1, pyInt c.2.1, pyInt c.2.2)

/-- Python `str.strip()` as used on the form inputs: removes leading and
trailing whitespace. Modelled structurally over the character list. -/
def strip (s : String) : String :=
  ⟨((s.data.dropWhile Char.isWhitespace).reverse.dropWhile
      Char.isWhitespace).reverse⟩

/-- The validation failures of the add-invoice form (lines 124-130), each
named after the field its displayed error message names. -/
inductive AddError where
  | clientRequired
  | monthRequired
  | amountNotPositive
deriving DecidableEq, Repr

/-- The add-invoice form handler's `elif` validation chain and append
(src/billing_bars.py:124-139). `freshId` models `str(uuid.uuid4())` and
`created_at` the utcnow timestamp. -/
def add_invoice (recs : List Record) (client : String) (amount : ℚ)
    (month : String) (freshId created_at : String) :
    Except AddError (List Record) :=
  if strip client = "" then .error .clientRequired
  else if strip month = "" then .error .monthRequired
  else if amount ≤ 0 then .error .amountNotPositive
  else .ok (recs ++ [{ id := freshId, client := strip client, amount := amount,
                       month := strip month, created_at := created_at }])

/-- The add handler's effect on collection and stored file: on a validation
error the dataframe is untouched and nothing is written; on success the grown
collection is saved (lines 139-140). -/
def add_handler (recs : List Record) (client : String) (amount : ℚ)
    (month : String) (freshId created_at : String) :
    List Record × Option (List RawRow) × Option AddError :=
  match add_invoice recs client amount month freshId created_at with
  | .error e => (recs, none, some e)
  | .ok l => (l, some (save_data l), none)

/-- The delete button handler (src/billing_bars.py:243-249):
`df = df[df["id"] != rid]`. It keeps exactly the rows whose id differs. -/
def delete_action (recs : List Record) (rid : String) : List Record :=
  recs.filter fun r => r.id != rid

/-- Delete followed by its unconditional `save_data(df)`; the handler always
reports success. -/
def delete_handler (recs : List Record) (rid : String) :
    List Record × List RawRow :=
  (delete_action recs rid, save_data (delete_action recs rid))

/-- The edit-save button handler (src/billing_bars.py:265-270): the three
`df.loc[df["id"] == rid, ...]` assignments write the trimmed client, the
amount and the trimmed month into every row whose id equals `rid`. No
validation is performed and no error can be reported. -/
def update_invoice (recs : List Record) (rid : String) (client : String)
    (amount : ℚ) (month : String) : List Record :=
  recs.map fun r =>
    if r.id = rid then
      { r with client := strip client, amount := amount, month := strip month }
    else r

/-- Sum of the amounts of the records of one month: a single group of
`df.groupby("month")["amount"].sum()` (src/billing_bars.py:166-171). -/
def sumMonth (m : String) (recs : List Record) : ℚ :=
  ((recs.filter fun r => r.month == m).map Record.amount).sum

/-- The `monthly` aggregation (src/billing_bars.py:166-171): one row per
distinct month string, carrying the summed amount, sorted ascending by
month. -/
def monthly (recs : List Record) : List (String × ℚ) :=
  (List.insertionSort (· ≤ ·) (recs.map Record.month).dedup).map
    fun m => (m, sumMonth m recs)

/-- `monthly["pct"]` (src/billing_bars.py:173): an unconditional division
`(monthly["total"] / float(target)) * 100`. -/
def pctOf (total target : ℚ) : ℚ := total / target * 100

/-- The monthly rows extended with the `pct` column. -/
def monthlyPct (recs : List Record) (target : ℚ) : List (String × ℚ × ℚ) :=
  (monthly recs).map fun p => (p.1, p.2, pctOf p.2 target)

/-- The target widget (src/billing_bars.py:146):
`st.number_input(..., min_value=1.0, ...)` never yields a value below 1. -/
def target_input (x : ℚ) : ℚ := max 1 x

/-! ### The color gradient (claims C2 and C8) -/

theorem lerp_one (a b : ℚ) : lerp a b 1 = b := by unfold lerp; ring

/-- C2: with the default pivot 0.60, for every positive target
`color_for_value` returns exactly the red anchor (220,53,69) at value 0,
exactly the yellow anchor (255,193,7) at value = pivot * target, and exactly
the green anchor (25,135,84) at every value at or above the target; for every
non-positive target it returns the green anchor regardless of value. -/
theorem color_for_value_anchors (value target : ℚ) :
    (0 < target →
      color_for_value 0 target = (220, 53, 69) ∧
      color_for_value (3/5 * target) target = (255, 193, 7) ∧
      (target ≤ value → color_for_value value target = (25, 135, 84))) ∧
    (target ≤ 0 → color_for_value value target = (25, 135, 84)) := by
  constructor
  · intro h
    have h0 : ¬ target ≤ 0 := not_le.mpr h
    have hne : target ≠ 0 := ne_of_gt h
    refine ⟨?_, ?_, ?_⟩
    · have hr : clamp (0 / target) = 0 := by norm_num [clamp]
      simp only [color_for_value, color_channels, if_neg h0, hr]
      norm_num [lerp, pyInt]
    · have hq : (3/5 * target) / target = 3/5 := by
        rw [mul_div_assoc, div_self hne, mul_one]
      have hr : clamp ((3/5 * target) / target) = 3/5 := by
        rw [hq]; norm_num [clamp]
      simp only [color_for_value, color_channels, if_neg h0, hr]
      norm_num [lerp, pyInt]
    · intro hv
      have h1 : (1:ℚ) ≤ value / target := (one_le_div h).mpr hv
      have hr : clamp (value / target) = 1 := by
        simp [clamp, min_eq_left h1]
      simp only [color_for_value, color_channels, if_neg h0, hr]
      norm_num [lerp, pyInt]
  · intro h
    simp only [color_for_value, color_channels, if_pos h]
    norm_num [pyInt]

/-- Witness for C2 at concrete inputs (target 200000, and target -5 for the
degenerate branch). -/
theorem color_for_value_anchors_witness :
    color_for_value 0 200000 = (220, 53, 69) ∧
    color_for_value 120000 200000 = (255, 193, 7) ∧
    color_for_value 200000 200000 = (25, 135, 84) ∧
    color_for_value 300000 (-5) = (25, 135, 84) := by
  refine ⟨?_, ?_, ?_, ?_⟩
  · exact ((color_for_value_anchors 0 200000).1 (by norm_num)).1
  · have h := ((color_for_value_anchors 0 200000).1 (by norm_num)).2.1
    norm_num at h
    exact h
  · exact ((color_for_value_anchors 200000 200000).1 (by norm_num)).2.2
      (by norm_num)
  · exact (color_for_value_anchors 300000 (-5)).2 (by norm_num)

/-- C8 counterexample: the channels are not rounded to the nearest integer.
At value 6000, target 200000 the exact channels are (221.75, 60, 65.9), but
the encoded triple is (221, 60, 65): `int()` truncates the blue channel 65.9
to 65, whereas its nearest integer is 66 (and 221.75 would round to 222). -/
theorem color_for_value_not_rounded :
    color_channels 6000 200000 = (221.75, 60, 65.9) ∧
    color_for_value 6000 200000 = (221, 60, 65) ∧
    round (65.9 : ℚ) = 66 ∧ round (221.75 : ℚ) = 222 := by
  have f1 : ⌊(221.75 : ℚ)⌋ = 221 := by rw [Int.floor_eq_iff]; norm_num
  have f2 : ⌊(65.9 : ℚ)⌋ = 65 := by rw [Int.floor_eq_iff]; norm_num
  have hch : color_channels 6000 200000 = (221.75, 60, 65.9) := by
    norm_num [color_channels, clamp, lerp]
  refine ⟨hch, ?_, ?_, ?_⟩
  · simp only [color_for_value, hch]
    norm_num [pyInt, f1, f2]
  · rw [round_eq]
    rw [show (65.9 : ℚ) + 1/2 = 66.4 by norm_num]
    rw [Int.floor_eq_iff]; norm_num
  · rw [round_eq]
    rw [show (221.75 : ℚ) + 1/2 = 222.25 by norm_num]
    rw [Int.floor_eq_iff]; norm_num

/-- C8 amended: each channel is truncated toward zero by Python `int()`
(the floor, for these non-negative channels), not rounded to nearest; at
value 60000, target 200000 the exact channels equal the channel-wise midpoint
of the red and yellow anchors, and the encoded triple is its truncation
(237, 123, 38). -/
theorem color_midpoint_truncated :
    color_channels 60000 200000 = ((220+255)/2, (53+193)/2, (69+7)/2) ∧
    color_for_value 60000 200000 = (237, 123, 38) ∧
    ∀ q : ℚ, 0 ≤ q → pyInt q = ⌊q⌋ := by
  have hch : color_channels 60000 200000 = (237.5, 123, 38) := by
    norm_num [color_channels, clamp, lerp]
  have f1 : ⌊(237.5 : ℚ)⌋ = 237 := by rw [Int.floor_eq_iff]; norm_num
  refine ⟨by rw [hch]; norm_num, ?_, ?_⟩
  · simp only [color_for_value, hch]
    norm_num [pyInt, f1]
  · intro q hq
    simp [pyInt, hq]

/-- Witness for the hypothesis-bearing part of the amended C8. -/
theorem color_midpoint_truncated_witness :
    0 ≤ (5/2 : ℚ) ∧ pyInt (5/2) = ⌊(5/2 : ℚ)⌋ :=
  ⟨by norm_num, color_midpoint_truncated.2.2 (5/2) (by norm_num)⟩

/-! ### Sample records used to instantiate the general theorems -/

def rec1 : Record :=
  { id := "i1", client := "c", amount := 50000, month := "2024-01",
    created_at := "t1" }

def rec2 : Record :=
  { id := "i2", client := "d", amount := 70000, month := "2024-01",
    created_at := "t2" }

def rec3 : Record :=
  { id := "i3", client := "e", amount := 100, month := "2023-12",
    created_at := "t3" }

/-! ### Monthly aggregation (claims C3 and C9) -/

theorem sumMonth_perm (m : String) {l₁ l₂ : List Record} (h : l₁.Perm l₂) :
    sumMonth m l₁ = sumMonth m l₂ :=
  ((h.filter _).map _).sum_eq

/-- The month column of the aggregate is the sorted dedup of the records'
month column. -/
theorem monthly_months (recs : List Record) :
    (monthly recs).map Prod.fst =
      List.insertionSort (· ≤ ·) (recs.map Record.month).dedup := by
  simp [monthly, List.map_map, Function.comp_def]

/-- C3: the aggregation has exactly one entry per distinct month key
(compared by exact string equality): its month column is strictly sorted in
lexicographic string order and a month appears in it exactly when some record
bears it; each entry's total is the sum of the amounts of the records of that
month; and the whole result is invariant under permutation of the records. -/
theorem monthly_spec (recs recs' : List Record) :
    ((monthly recs).map Prod.fst).Sorted (· < ·) ∧
    (∀ m : String,
      m ∈ (monthly recs).map Prod.fst ↔ m ∈ recs.map Record.month) ∧
    (∀ p ∈ monthly recs, p.2 = sumMonth p.1 recs) ∧
    (recs.Perm recs' → monthly recs = monthly recs') := by
  refine ⟨?_, ?_, ?_, ?_⟩
  · rw [monthly_months]
    refine List.Sorted.lt_of_le (List.sorted_insertionSort _ _) ?_
    exact ((List.perm_insertionSort _ _).nodup_iff).mpr (List.nodup_dedup _)
  · intro m
    rw [monthly_months, (List.perm_insertionSort _ _).mem_iff, List.mem_dedup]
  · intro p hp
    simp only [monthly, List.mem_map] at hp
    obtain ⟨m, _, rfl⟩ := hp
    rfl
  · intro h
    unfold monthly
    have hkeys : List.insertionSort (· ≤ ·) (recs.map Record.month).dedup
        = List.insertionSort (· ≤ ·) (recs'.map Record.month).dedup := by
      haveI : IsAntisymm String (· ≤ ·) := ⟨fun _ _ => le_antisymm⟩
      refine List.eq_of_perm_of_sorted ?_ (List.sorted_insertionSort _ _)
        (List.sorted_insertionSort _ _)
      exact (List.perm_insertionSort _ _).trans
        (((h.map Record.month).dedup).trans
          (List.perm_insertionSort _ _).symm)
    rw [hkeys]
    exact List.map_congr_left fun m _ => by rw [sumMonth_perm m h]

/-- Concrete evaluation of the aggregation on the spec's example: two records
of month "2024-01" with amounts 50000 and 70000 yield the single entry
("2024-01", 120000). -/
theorem monthly_rec12_eval : monthly [rec1, rec2] = [("2024-01", 120000)] := by
  have hd : (([rec1, rec2].map Record.month).dedup) = ["2024-01"] := by
    simp [rec1, rec2, List.dedup_cons_of_mem]
  have hs : List.insertionSort (· ≤ ·) (([rec1, rec2].map Record.month).dedup)
      = ["2024-01"] := by
    rw [hd]; simp [List.insertionSort]
  unfold monthly
  rw [hs]
  simp [sumMonth, rec1, rec2, List.filter]
  norm_num

/-- Witness for C3 on the spec's example, including permutation
invariance. -/
theorem monthly_spec_witness :
    ("2024-01", (120000 : ℚ)) ∈ monthly [rec1, rec2] ∧
    (120000 : ℚ) = sumMonth "2024-01" [rec1, rec2] ∧
    monthly [rec1, rec2] = monthly [rec2, rec1] ∧
    ("2024-01" ∈ (monthly [rec1, rec2]).map Prod.fst ↔
      "2024-01" ∈ [rec1, rec2].map Record.month) := by
  have hmem : ("2024-01", (120000 : ℚ)) ∈ monthly [rec1, rec2] := by
    rw [monthly_rec12_eval]; exact List.mem_singleton.mpr rfl
  exact ⟨hmem,
    (monthly_spec [rec1, rec2] [rec2, rec1]).2.2.1 _ hmem,
    (monthly_spec [rec1, rec2] [rec2, rec1]).2.2.2 (by decide),
    (monthly_spec [rec1, rec2] [rec2, rec1]).2.1 "2024-01"⟩

/-- C9 counterexample: `monthly["pct"]` has no guard for a non-positive
target: with one record of amount 100 and target -200 the pct value is -50,
not 0. (In the app this is unreachable: the target widget has
min_value=1.0.) -/
theorem pct_nonpositive_cex :
    monthlyPct [rec3] (-200) = [("2023-12", 100, -50)] ∧ ((-50 : ℚ) ≠ 0) := by
  constructor
  · have hm : monthly [rec3] = [("2023-12", 100)] := by
      unfold monthly
      have hd : (([rec3].map Record.month).dedup) = ["2023-12"] := by
        simp [rec3]
      rw [hd]
      simp [List.insertionSort, sumMonth, rec3, List.filter]
    simp [monthlyPct, hm, pctOf]
    norm_num
  · norm_num

/-- C9 amended: `pct` is the unconditional formula `total / target * 100`
applied to each month's summed amount; the code has no non-positive-target
branch, but the target widget never yields a value below 1, so inside the app
the divisor is always positive. -/
theorem monthlyPct_formula (recs : List Record) (x : ℚ) :
    1 ≤ target_input x ∧
    ∀ p ∈ monthlyPct recs (target_input x),
      p.2.2 = sumMonth p.1 recs / target_input x * 100 := by
  refine ⟨le_max_left 1 x, ?_⟩
  intro p hp
  simp only [monthlyPct, List.mem_map] at hp
  obtain ⟨q, hq, rfl⟩ := hp
  simp only [pctOf]
  rw [(monthly_spec recs recs).2.2.1 q hq]

/-- Witness for the amended C9 with target widget input -7 (clamped to 1). -/
theorem monthlyPct_formula_witness :
    ("2023-12", (100 : ℚ), (10000 : ℚ)) ∈ monthlyPct [rec3] (target_input (-7)) ∧
    (10000 : ℚ) = sumMonth "2023-12" [rec3] / target_input (-7) * 100 := by
  have ht : target_input (-7) = 1 := by
    unfold target_input
    norm_num
  have hm : monthly [rec3] = [("2023-12", 100)] := by
    unfold monthly
    have hd : (([rec3].map Record.month).dedup) = ["2023-12"] := by
      simp [rec3]
    rw [hd]
    simp [List.insertionSort, sumMonth, rec3, List.filter]
  have hmem : ("2023-12", (100 : ℚ), (10000 : ℚ))
      ∈ monthlyPct [rec3] (target_input (-7)) := by
    simp [monthlyPct, hm, pctOf, ht]
    norm_num
  exact ⟨hmem, (monthlyPct_formula [rec3] (-7)).2 _ hmem⟩

/-! ### Delete (claims C10 and C1) -/

/-- C10: the delete handler removes every record bearing the given
identifier: afterwards no record with that id remains in the collection nor
in the rewritten file — also when several records share the id. -/
theorem delete_removes_all_matching (recs : List Record) (rid : String) :
    (∀ r ∈ (delete_handler recs rid).1, r.id ≠ rid) ∧
    (∀ row ∈ (delete_handler recs rid).2, row.id ≠ rid) := by
  constructor
  · intro r hr
    simp only [delete_handler, delete_action, List.mem_filter, bne_iff_ne,
      ne_eq] at hr
    exact hr.2
  · intro row hrow
    simp only [delete_handler, save_data, delete_action, List.mem_map,
      List.mem_filter, bne_iff_ne, ne_eq] at hrow
    obtain ⟨r, ⟨_, hne⟩, rfl⟩ := hrow
    exact hne

/-- Witness for C10: deleting "i1" from [rec1, rec2] leaves rec2, whose id
differs from "i1". -/
theorem delete_removes_all_matching_witness :
    rec2 ∈ (delete_handler [rec1, rec2] "i1").1 ∧ rec2.id ≠ "i1" := by
  have hmem : rec2 ∈ (delete_handler [rec1, rec2] "i1").1 := by decide
  exact ⟨hmem, (delete_removes_all_matching [rec1, rec2] "i1").1 rec2 hmem⟩

/-- C1 counterexample: with the only record bearing id "i1", deleting the
absent id "zzz" raises no error: the handler returns the unchanged collection
and still rewrites the file; the edit-save handler with an absent id likewise
completes silently, modifying nothing. No NotFoundError exists in the
code. -/
theorem absent_id_silent_success :
    delete_handler [rec1] "zzz" = ([rec1], save_data [rec1]) ∧
    update_invoice [rec1] "zzz" "New" 5 "2024-02" = [rec1] := by
  constructor <;> decide

/-- C1 amended: on an identifier borne by no record, both operations silently
succeed instead of failing with NotFoundError: delete filters nothing out and
rewrites the file with the same records, and update modifies no record. -/
theorem absent_id_noop (recs : List Record) (rid : String)
    (h : ∀ r ∈ recs, r.id ≠ rid) (c : String) (a : ℚ) (m : String) :
    delete_handler recs rid = (recs, save_data recs) ∧
    update_invoice recs rid c a m = recs := by
  have hd : delete_action recs rid = recs :=
    List.filter_eq_self.mpr fun r hr => by simp [bne_iff_ne, h r hr]
  refine ⟨by simp [delete_handler, hd], ?_⟩
  unfold update_invoice
  conv_rhs => rw [← List.map_id recs]
  exact List.map_congr_left fun r hr => by simp [h r hr]

/-- Witness for the amended C1 at a concrete absent identifier. -/
theorem absent_id_noop_witness :
    (∀ r ∈ [rec1], r.id ≠ "yyy") ∧
    delete_handler [rec1] "yyy" = ([rec1], save_data [rec1]) ∧
    update_invoice [rec1] "yyy" "X" 7 "2024-05" = [rec1] := by
  have h : ∀ r ∈ [rec1], r.id ≠ "yyy" := by decide
  exact ⟨h, absent_id_noop [rec1] "yyy" h "X" 7 "2024-05"⟩

/-! ### Update (claims C7 and C6) -/

def dupA : Record :=
  { id := "d", client := "c1", amount := 1, month := "2024-01",
    created_at := "ta" }

def dupB : Record :=
  { id := "d", client := "c2", amount := 2, month := "2024-02",
    created_at := "tb" }

/-- C7 counterexample: when two records share the identifier "d" (possible in
a hand-edited legacy file), the edit-save handler rewrites both matching
rows, so a record other than the targeted one is changed. -/
theorem update_duplicate_id_cex :
    dupB ∈ [dupA, dupB] ∧
    update_invoice [dupA, dupB] "d" "X" 5 "2024-03"
      = [{ dupA with client := "X", amount := 5, month := "2024-03" },
         { dupB with client := "X", amount := 5, month := "2024-03" }] ∧
    ({ dupB with client := "X", amount := 5, month := "2024-03" } : Record)
      ≠ dupB := by
  refine ⟨by decide, by decide, by decide⟩

/-- C7 amended: update changes at most the client, amount and month of the
rows whose id equals the target; every row keeps its position, id and
created_at, and every row whose id differs is entirely unchanged (when
identifiers are unique, that is every other record). -/
theorem update_frame (recs : List Record) (rid c : String) (a : ℚ)
    (m : String) (i : ℕ) (h : i < recs.length)
    (h' : i < (update_invoice recs rid c a m).length) :
    (update_invoice recs rid c a m).length = recs.length ∧
    (recs[i].id ≠ rid → (update_invoice recs rid c a m)[i] = recs[i]) ∧
    (recs[i].id = rid →
      (update_invoice recs rid c a m)[i]
        = { recs[i] with client := strip c, amount := a, month := strip m }) ∧
    (update_invoice recs rid c a m)[i].id = recs[i].id ∧
    (update_invoice recs rid c a m)[i].created_at = recs[i].created_at := by
  have hmap : (update_invoice recs rid c a m)[i]
      = if recs[i].id = rid
        then { recs[i] with client := strip c, amount := a, month := strip m }
        else recs[i] := by
    simp [update_invoice]
  refine ⟨by simp [update_invoice], ?_, ?_, ?_, ?_⟩
  · intro hne; rw [hmap, if_neg hne]
  · intro heq; rw [hmap, if_pos heq]
  · rw [hmap]
    by_cases hc : recs[i].id = rid
    · rw [if_pos hc]
    · rw [if_neg hc]
  · rw [hmap]
    by_cases hc : recs[i].id = rid
    · rw [if_pos hc]
    · rw [if_neg hc]

/-- Witness for the amended C7: updating "i1" in [rec1, rec2] leaves the
record at position 1 (rec2, different id) entirely unchanged. -/
theorem update_frame_witness :
    (update_invoice [rec1, rec2] "i1" "New" 5 "2024-02").length = 2 ∧
    (update_invoice [rec1, rec2] "i1" "New" 5 "2024-02").get
      ⟨1, by simp [update_invoice]⟩ = rec2 := by
  have h : (1 : ℕ) < ([rec1, rec2] : List Record).length := by decide
  have h' :
      (1 : ℕ) < (update_invoice [rec1, rec2] "i1" "New" 5 "2024-02").length := by
    simp [update_invoice]
  have hfr := update_frame [rec1, rec2] "i1" "New" 5 "2024-02" 1 h h'
  constructor
  · rw [hfr.1]; rfl
  · have h2 := hfr.2.1 (show rec2.id ≠ "i1" by decide)
    exact h2

/-- C6 counterexample: the edit-save handler performs no validation: saving
with a whitespace-only client silently succeeds, storing an empty client
(and the collection changes rather than being left intact by a
ValidationError). -/
theorem update_no_validation :
    update_invoice [rec1] "i1" "   " 0 " 2024-02 "
      = [{ rec1 with client := "", amount := 0, month := "2024-02" }] ∧
    update_invoice [rec1] "i1" "   " 0 " 2024-02 " ≠ [rec1] := by
  constructor <;> decide

/-- C6 amended: update stores the client and month trimmed of surrounding
whitespace and the amount as given, with no validation at all: an
empty-after-trimming client or month is stored as the empty string, and any
amount — zero included — is accepted (the form's number widget, not the
handler, keeps amounts non-negative). -/
theorem update_stores_trimmed (recs : List Record) (rid c : String) (a : ℚ)
    (m : String) :
    ∀ r ∈ update_invoice recs rid c a m, r.id = rid →
      r.client = strip c ∧ r.amount = a ∧ r.month = strip m := by
  intro r hr hid
  simp only [update_invoice, List.mem_map] at hr
  obtain ⟨s, _, rfl⟩ := hr
  by_cases hc : s.id = rid
  · simp [hc]
  · rw [if_neg hc] at hid ⊢
    exact absurd hid hc

/-- Witness for the amended C6: a whitespace-only client is stored as the
empty string. -/
theorem update_stores_trimmed_witness :
    ({ rec1 with client := "", amount := 0, month := "2024-02" } : Record)
        ∈ update_invoice [rec1] "i1" "   " 0 " 2024-02 " ∧
    ({ rec1 with client := "", amount := 0, month := "2024-02" } : Record).client
        = strip "   " := by
  have hmem : ({ rec1 with client := "", amount := 0, month := "2024-02" } : Record)
      ∈ update_invoice [rec1] "i1" "   " 0 " 2024-02 " := by decide
  exact ⟨hmem,
    (update_stores_trimmed [rec1] "i1" "   " 0 " 2024-02 " _ hmem (by decide)).1⟩

/-! ### Add (claim C4) -/

/-- C4: the add form accepts exactly when the stripped client is non-empty,
the stripped month is non-empty and the amount is strictly positive; on
success it appends exactly one record (stripped client and month, given
amount, fresh id, created_at stamp) and saves the grown collection; on each
violation it fails with the error naming the offending field and leaves the
collection and the stored file untouched. -/
theorem add_invoice_spec (recs : List Record) (c : String) (a : ℚ)
    (m : String) (freshId created_at : String) :
    (∀ l, add_invoice recs c a m freshId created_at = .ok l ↔
      (strip c ≠ "" ∧ strip m ≠ "" ∧ 0 < a ∧
        l = recs ++ [{ id := freshId, client := strip c, amount := a,
                       month := strip m, created_at := created_at }])) ∧
    (strip c = "" →
      add_handler recs c a m freshId created_at
        = (recs, none, some .clientRequired)) ∧
    (strip c ≠ "" → strip m = "" →
      add_handler recs c a m freshId created_at
        = (recs, none, some .monthRequired)) ∧
    (strip c ≠ "" → strip m ≠ "" → a ≤ 0 →
      add_handler recs c a m freshId created_at
        = (recs, none, some .amountNotPositive)) ∧
    (strip c ≠ "" → strip m ≠ "" → 0 < a →
      add_handler recs c a m freshId created_at
        = (recs ++ [{ id := freshId, client := strip c, amount := a,
                      month := strip m, created_at := created_at }],
           some (save_data
             (recs ++ [{ id := freshId, client := strip c, amount := a,
                         month := strip m, created_at := created_at }])),
           none)) := by
  by_cases hc : strip c = "" <;> by_cases hm : strip m = "" <;>
    by_cases ha : a ≤ 0 <;>
      simp [add_invoice, add_handler, hc, hm, ha, not_le, not_lt,
        le_of_lt, eq_comm]
  all_goals exact not_le.mp ha

/-- Witness for C4: one accepted submission and one rejected (blank client)
submission. -/
theorem add_invoice_spec_witness :
    add_handler [] " ACME " 5 " 2024-01 " "u1" "ts"
      = ([{ id := "u1", client := "ACME", amount := 5, month := "2024-01",
            created_at := "ts" }],
         some (save_data
           [{ id := "u1", client := "ACME", amount := 5,
              month := "2024-01", created_at := "ts" }]), none) ∧
    add_handler [rec1] "  " 5 "2024-01" "u2" "ts"
      = ([rec1], none, some .clientRequired) := by
  constructor
  · exact (add_invoice_spec [] " ACME " 5 " 2024-01 " "u1" "ts").2.2.2.2
      (by decide) (by decide) (by norm_num)
  · exact (add_invoice_spec [rec1] "  " 5 "2024-01" "u2" "ts").2.1 (by decide)

/-! ### Load and repair (claim C5) -/

/-- The ids of the stored rows that are already valid. -/
def goodIds (rows : List RawRow) : List String :=
  (rows.filter fun row => !badId row.id).map RawRow.id

/-- Equation lemma for `load_data` on a present file. -/
theorem load_data_some (rows : List RawRow) (fresh : ℕ → String) :
    load_data (some rows) fresh
      = if rows.any fun row => badId row.id then
          (repairRows fresh rows 0, some (save_data (repairRows fresh rows 0)))
        else (repairRows fresh rows 0, none) := rfl

/-- Row-by-row behaviour of the cleaning pass: every field is copied, a
non-numeric amount becomes 0, a good id is kept and a bad id is replaced by a
stream identifier of index at least `k`. -/
theorem repairRows_forall₂ (fresh : ℕ → String) (rows : List RawRow) :
    ∀ k : ℕ,
      List.Forall₂ (fun row r =>
        r.client = row.client ∧ r.month = row.month ∧
        r.created_at = row.created_at ∧ r.amount = row.amount.getD 0 ∧
        (badId row.id = false → r.id = row.id) ∧
        (badId row.id = true → ∃ j, k ≤ j ∧ r.id = fresh j))
        rows (repairRows fresh rows k) := by
  induction rows with
  | nil => intro k; exact List.Forall₂.nil
  | cons row rest ih =>
    intro k
    unfold repairRows
    by_cases hb : badId row.id = true
    · rw [if_pos hb]
      refine List.Forall₂.cons
        ⟨rfl, rfl, rfl, rfl, fun h => ?_, fun _ => ⟨k, le_refl k, rfl⟩⟩ ?_
      · rw [hb] at h; cases h
      · refine (ih (k + 1)).imp ?_
        intro a b hab
        obtain ⟨h1, h2, h3, h4, h5, h6⟩ := hab
        refine ⟨h1, h2, h3, h4, h5, fun ht => ?_⟩
        obtain ⟨j, hj, he⟩ := h6 ht
        exact ⟨j, Nat.le_of_succ_le hj, he⟩
    · rw [if_neg hb]
      refine List.Forall₂.cons
        ⟨rfl, rfl, rfl, rfl, fun _ => rfl, fun ht => absurd ht hb⟩ (ih k)

/-- After cleaning with a stream of valid identifiers, every record's id is
valid. -/
theorem repairRows_good_ids (fresh : ℕ → String)
    (hGood : ∀ k, badId (fresh k) = false) (rows : List RawRow) :
    ∀ k, ∀ r ∈ repairRows fresh rows k, badId r.id = false := by
  induction rows with
  | nil => intro k r hr; cases hr
  | cons row rest ih =>
    intro k r hr
    unfold repairRows at hr
    by_cases hb : badId row.id = true
    · rw [if_pos hb] at hr
      rcases List.mem_cons.mp hr with rfl | hr
      · exact hGood k
      · exact ih (k + 1) r hr
    · rw [if_neg hb] at hr
      rcases List.mem_cons.mp hr with rfl | hr
      · simpa using hb
      · exact ih k r hr

/-- Every id after cleaning is either a kept good stored id or a stream
identifier of index at least `k`. -/
theorem repairRows_id_mem (fresh : ℕ → String) (rows : List RawRow) :
    ∀ k, ∀ r ∈ repairRows fresh rows k,
      (∃ row ∈ rows, badId row.id = false ∧ r.id = row.id) ∨
      (∃ j, k ≤ j ∧ r.id = fresh j) := by
  induction rows with
  | nil => intro k r hr; cases hr
  | cons row rest ih =>
    intro k r hr
    unfold repairRows at hr
    by_cases hb : badId row.id = true
    · rw [if_pos hb] at hr
      rcases List.mem_cons.mp hr with rfl | hr
      · exact Or.inr ⟨k, le_refl k, rfl⟩
      · rcases ih (k + 1) r hr with ⟨row', hm, hg, he⟩ | ⟨j, hj, he⟩
        · exact Or.inl ⟨row', List.mem_cons_of_mem _ hm, hg, he⟩
        · exact Or.inr ⟨j, Nat.le_of_succ_le hj, he⟩
    · rw [if_neg hb] at hr
      rcases List.mem_cons.mp hr with rfl | hr
      · exact Or.inl ⟨row, List.mem_cons_self _ _, by simpa using hb, rfl⟩
      · rcases ih k r hr with ⟨row', hm, hg, he⟩ | hj
        · exact Or.inl ⟨row', List.mem_cons_of_mem _ hm, hg, he⟩
        · exact Or.inr hj

/-- Freshly assigned identifiers collide neither with each other nor with the
kept good ids, so distinct stored good ids yield pairwise distinct record
ids. -/
theorem repairRows_nodup (fresh : ℕ → String)
    (hInj : Function.Injective fresh) :
    ∀ rows : List RawRow,
      (∀ j, ∀ row ∈ rows, badId row.id = false → fresh j ≠ row.id) →
      (goodIds rows).Nodup →
      ∀ k, ((repairRows fresh rows k).map Record.id).Nodup := by
  intro rows
  induction rows with
  | nil => intro _ _ k; simp [repairRows]
  | cons row rest ih =>
    intro hAvoid hNodup k
    have hAvoid' : ∀ j, ∀ row' ∈ rest, badId row'.id = false →
        fresh j ≠ row'.id :=
      fun j row' h => hAvoid j row' (List.mem_cons_of_mem _ h)
    unfold repairRows
    by_cases hb : badId row.id = true
    · have hNodup' : (goodIds rest).Nodup := by
        simpa [goodIds, List.filter_cons, hb] using hNodup
      rw [if_pos hb, List.map_cons]
      refine List.nodup_cons.mpr ⟨?_, ih hAvoid' hNodup' (k + 1)⟩
      intro hmem
      rw [List.mem_map] at hmem
      obtain ⟨r, hr, hid⟩ := hmem
      rcases repairRows_id_mem fresh rest (k + 1) r hr with
        ⟨row', hm, hg, he⟩ | ⟨j, hj, he⟩
      · exact hAvoid' k row' hm hg (by rw [← he, hid])
      · have hjk : j = k := hInj (by rw [← he, hid])
        omega
    · have hsplit : goodIds (row :: rest) = row.id :: goodIds rest := by
        simp [goodIds, List.filter_cons, hb]
      rw [hsplit, List.nodup_cons] at hNodup
      rw [if_neg hb, List.map_cons]
      refine List.nodup_cons.mpr ⟨?_, ih hAvoid' hNodup.2 k⟩
      intro hmem
      rw [List.mem_map] at hmem
      obtain ⟨r, hr, hid⟩ := hmem
      rcases repairRows_id_mem fresh rest k r hr with
        ⟨row', hm, hg, he⟩ | ⟨j, hj, he⟩
      · refine hNodup.1 ?_
        refine List.mem_map.mpr ⟨row', List.mem_filter.mpr ⟨hm, by simp [hg]⟩, ?_⟩
        rw [← he, hid]
      · exact hAvoid j row (List.mem_cons_self _ _) (by simpa using hb)
          (by rw [← he, hid])

/-- When no stored id is bad, cleaning only coerces the amounts. -/
theorem repairRows_all_good (fresh : ℕ → String) (rows : List RawRow)
    (h : ∀ row ∈ rows, badId row.id = false) :
    ∀ k, repairRows fresh rows k
      = rows.map fun row =>
          { id := row.id, client := row.client, amount := row.amount.getD 0,
            month := row.month, created_at := row.created_at } := by
  induction rows with
  | nil => intro k; rfl
  | cons row rest ih =>
    intro k
    have hb : ¬ badId row.id = true := by
      simp [h row (List.mem_cons_self _ _)]
    unfold repairRows
    rw [if_neg hb, List.map_cons]
    exact congrArg _ (ih (fun row' h' => h row' (List.mem_cons_of_mem _ h')) k)

/-- Loading a file that was just saved from a collection of valid-id records
repairs nothing, writes nothing and returns the same records. -/
theorem load_data_saved (fresh : ℕ → String) (recs : List Record)
    (h : ∀ r ∈ recs, badId r.id = false) :
    load_data (some (save_data recs)) fresh = (recs, none) := by
  have hrows : ∀ row ∈ save_data recs, badId row.id = false := by
    intro row hrow
    simp only [save_data, List.mem_map] at hrow
    obtain ⟨r, hr, rfl⟩ := hrow
    exact h r hr
  have hany : ¬ ((save_data recs).any fun row => badId row.id) = true := by
    rw [List.any_eq_true]
    rintro ⟨row, hrow, hbad⟩
    rw [hrows row hrow] at hbad
    cases hbad
  rw [load_data_some, if_neg hany, repairRows_all_good fresh _ hrows 0]
  refine congrArg (fun l => (l, (none : Option (List RawRow)))) ?_
  simp only [save_data, List.map_map]
  exact List.map_id recs

/-- C5: `load_data` never fails on malformed data. A missing file yields the
empty collection with no write. For a present file: row-by-row every field is
copied, a non-numeric amount is coerced to 0, a good id is kept, and every
missing/blank id is replaced by a stream (uuid) identifier; when at least one
id was repaired, the repaired collection is persisted before returning,
otherwise nothing is written; the returned ids are never blank (uuids are
never blank), so an immediately repeated load of the saved file performs no
repair, writes nothing and returns the same records; and when the stream is
injective and avoids the good stored ids, distinct good stored ids yield
pairwise distinct record ids. -/
theorem load_data_spec (rows : List RawRow) (fresh : ℕ → String)
    (hGood : ∀ k, badId (fresh k) = false) :
    load_data none fresh = ([], none) ∧
    List.Forall₂ (fun row r =>
      r.client = row.client ∧ r.month = row.month ∧
      r.created_at = row.created_at ∧ r.amount = row.amount.getD 0 ∧
      (badId row.id = false → r.id = row.id) ∧
      (badId row.id = true → ∃ j, 0 ≤ j ∧ r.id = fresh j))
      rows (load_data (some rows) fresh).1 ∧
    (∀ r ∈ (load_data (some rows) fresh).1, badId r.id = false) ∧
    ((rows.any fun row => badId row.id) = true →
      (load_data (some rows) fresh).2
        = some (save_data (load_data (some rows) fresh).1)) ∧
    ((rows.any fun row => badId row.id) = false →
      (load_data (some rows) fresh).2 = none) ∧
    load_data (some (save_data (load_data (some rows) fresh).1)) fresh
      = ((load_data (some rows) fresh).1, none) ∧
    (Function.Injective fresh →
      (∀ j, ∀ row ∈ rows, badId row.id = false → fresh j ≠ row.id) →
      (goodIds rows).Nodup →
      ((load_data (some rows) fresh).1.map Record.id).Nodup) := by
  have hfst : (load_data (some rows) fresh).1 = repairRows fresh rows 0 := by
    rw [load_data_some]; split_ifs <;> rfl
  refine ⟨rfl, ?_, ?_, ?_, ?_, ?_, ?_⟩
  · rw [hfst]; exact repairRows_forall₂ fresh rows 0
  · rw [hfst]; exact repairRows_good_ids fresh hGood rows 0
  · intro hany; simp [load_data_some, hany]
  · intro hany; simp [load_data_some, hany]
  · rw [hfst]
    exact load_data_saved fresh _ (repairRows_good_ids fresh hGood rows 0)
  · intro hInj hAvoid hNodup
    rw [hfst]; exact repairRows_nodup fresh hInj rows hAvoid hNodup 0

/-- A concrete model of the uuid stream: the all-'u' strings of increasing
length (never blank, pairwise distinct). -/
def freshU (k : ℕ) : String := ⟨'u' :: List.replicate k 'u'⟩

theorem freshU_good : ∀ k, badId (freshU k) = false := by
  intro k
  simp only [badId, freshU, Bool.or_eq_false_iff, decide_eq_false_iff_not]
  refine ⟨⟨?_, ?_⟩, ?_⟩ <;> intro h
  · have hd : 'u' :: List.replicate k 'u' = "".data := congrArg String.data h
    rw [show "".data = [] from rfl] at hd
    cases hd
  · have hd : 'u' :: List.replicate k 'u' = "nan".data := congrArg String.data h
    rw [show "nan".data = ['n', 'a', 'n'] from rfl] at hd
    injection hd with h1 _
    exact absurd h1 (by decide)
  · have hd : 'u' :: List.replicate k 'u' = "None".data := congrArg String.data h
    rw [show "None".data = ['N', 'o', 'n', 'e'] from rfl] at hd
    injection hd with h1 _
    exact absurd h1 (by decide)

theorem freshU_inj : Function.Injective freshU := by
  intro a b h
  have hd : 'u' :: List.replicate a 'u' = 'u' :: List.replicate b 'u' :=
    congrArg String.data h
  have hl := congrArg List.length hd
  simpa using hl

theorem freshU_ne_b : ∀ j, freshU j ≠ "b" := by
  intro j h
  have hd : 'u' :: List.replicate j 'u' = "b".data := congrArg String.data h
  rw [show "b".data = ['b'] from rfl] at hd
  injection hd with h1 _
  exact absurd h1 (by decide)

def rowBad : RawRow :=
  { id := "", client := "x", amount := none, month := "2024-01",
    created_at := "s" }

def rowGood : RawRow :=
  { id := "b", client := "y", amount := some 3, month := "2024-02",
    created_at := "s2" }

/-- Witness for C5 on a two-row file with one blank id and one non-numeric
amount. -/
theorem load_data_spec_witness :
    load_data none freshU = ([], none) ∧
    (∀ r ∈ (load_data (some [rowBad, rowGood]) freshU).1, badId r.id = false) ∧
    (load_data (some [rowBad, rowGood]) freshU).2
      = some (save_data (load_data (some [rowBad, rowGood]) freshU).1) ∧
    load_data (some (save_data (load_data (some [rowBad, rowGood]) freshU).1))
        freshU
      = ((load_data (some [rowBad, rowGood]) freshU).1, none) ∧
    ((load_data (some [rowBad, rowGood]) freshU).1.map Record.id).Nodup := by
  have hs := load_data_spec [rowBad, rowGood] freshU freshU_good
  refine ⟨hs.1, hs.2.2.1, ?_, hs.2.2.2.2.2.1, ?_⟩
  · exact hs.2.2.2.1 (by decide)
  · refine hs.2.2.2.2.2.2 freshU_inj ?_ (by decide)
    intro j row hrow hgood
    rcases List.mem_cons.mp hrow with rfl | hrow
    · exact absurd hgood (by decide)
    · rcases List.mem_cons.mp hrow with rfl | hrow
      · exact freshU_ne_b j
      · cases hrow

end BillingBars
